import Mathlib

/-!
# Verification of the GuideRails annotation parser and execution engine

Shallow embedding of `src/guiderails/parser.py` and `src/guiderails/executor.py`
(classes `MarkdownParser`, `VariableStore`, `PathSandbox`, `Validator`,
`Executor`) together with models of the Python standard-library functions they
call (`str.strip`, `int`, `os.path.normpath` / `join` / `abspath` / `dirname`,
`re` pattern scanning, `os.makedirs`, file writes).  Python exceptions are
modelled with `Except PyErr`; filesystem and process effects are modelled with
explicit state / oracle parameters.  All definitions are executable.
-/

set_option maxRecDepth 10000

/-- A Python exception value: the constructor records which exception class was
raised and its message/payload. -/
inductive PyErr where
  | valueError (payload : String)
  | osError (msg : String)
  deriving DecidableEq, Repr

/-- Python `str(e)` on a caught exception. -/
def pyErrStr : PyErr → String
  | .valueError p => p
  | .osError m => m

/-! ## Models of Python `str` primitives -/

/-- Python `str.isspace` characters relevant to `str.strip()` with no
arguments: space, tab, newline, carriage return, vertical tab, form feed. -/
def pyIsSpace (c : Char) : Bool :=
  c = ' ' || c = '\t' || c = '\n' || c = '\r' || c = '\x0b' || c = '\x0c'

/-- `str.strip()` on a character list: drop whitespace from both ends. -/
def pyStripL (l : List Char) : List Char :=
  ((l.dropWhile pyIsSpace).reverse.dropWhile pyIsSpace).reverse

/-- Python `str.strip()`. -/
def pyStrip (s : String) : String := ⟨pyStripL s.data⟩

/-- Python `str.lstrip('#')`: drop leading `#` characters. -/
def pyLstripHash (s : String) : String := ⟨s.data.dropWhile (· = '#')⟩

/-- Python `str.lower()` (ASCII portion, which is all the executor compares). -/
def pyLower (s : String) : String := ⟨s.data.map Char.toLower⟩

/-- Python `str.startswith` (character-list level, so that concrete instances
evaluate inside the kernel). -/
def pyStartsWith (s pre : String) : Bool := pre.data.isPrefixOf s.data

/-- Python `str.endswith`. -/
def pyEndsWith (s suf : String) : Bool :=
  suf.data.reverse.isPrefixOf s.data.reverse

/-- Python `str.split("\n")`: split on newlines, keeping empty pieces. -/
def splitNl : List Char → List (List Char)
  | [] => [[]]
  | c :: cs =>
    if c = '\n' then [] :: splitNl cs
    else
      match splitNl cs with
      | [] => [[c]]
      | s :: ss => (c :: s) :: ss

/-- The lines of a document, as Python `content.split("\n")` produces them. -/
def pyLines (content : String) : List String :=
  (splitNl content.data).map (fun l => (⟨l⟩ : String))

/-- Numeric value of a decimal digit character. -/
def digitVal (c : Char) : Nat := c.toNat - '0'.toNat

/-- Value of a list of decimal digits, most significant first. -/
def digitsVal (ds : List Char) : Nat :=
  ds.foldl (fun a c => a * 10 + digitVal c) 0

/-- Digit-run parser for the model of Python `int`: accumulates digits and
allows single underscores between digits (PEP 515). -/
def pyDigitsGo (acc : Nat) : List Char → Option Nat
  | [] => some acc
  | c :: cs =>
    if c.isDigit then pyDigitsGo (acc * 10 + digitVal c) cs
    else if c = '_' then
      match cs with
      | d :: cs' => if d.isDigit then pyDigitsGo (acc * 10 + digitVal d) cs' else none
      | [] => none
    else none

/-- Parse a nonempty digit run (with optional internal underscores). -/
def pyDigits : List Char → Option Nat
  | [] => none
  | c :: cs => if c.isDigit then pyDigitsGo (digitVal c) cs else none

/-- Model of Python `int(s)` for base-10 string conversion: strip whitespace,
optional sign, then a nonempty digit run.  Returns `none` where Python raises
`ValueError`. -/
def pyIntL (l : List Char) : Option Int :=
  match pyStripL l with
  | [] => none
  | c :: rest =>
    if c = '-' then (pyDigits rest).map (fun n => -(n : Int))
    else if c = '+' then (pyDigits rest).map (fun n => (n : Int))
    else (pyDigits (c :: rest)).map (fun n => (n : Int))

/-- Model of Python `int(s)`. -/
def pyInt (s : String) : Option Int := pyIntL s.data

/-- `needle in haystack` on character lists (Python `in` for strings). -/
def containsSubL (needle : List Char) : List Char → Bool
  | [] => needle.isEmpty
  | c :: cs => needle.isPrefixOf (c :: cs) || containsSubL needle cs

/-- Python `needle in haystack` for strings. -/
def pyContains (haystack needle : String) : Bool :=
  containsSubL needle.data haystack.data

/-! ## Models of `os.path` (POSIX flavour, as the repository targets) -/

/-- `os.path.isabs` on POSIX: the path starts with a slash. -/
def pyIsAbs (s : String) : Bool := pyStartsWith s "/"

/-- `os.path.join(a, b)` on POSIX for two components. -/
def pyJoin (a b : String) : String :=
  if pyStartsWith b "/" then b
  else if a = "" || pyEndsWith a "/" then a ++ b
  else a ++ "/" ++ b

/-- Split a character list on `'/'`, keeping empty segments (like Python
`str.split('/')`). Structurally recursive. -/
def segsL : List Char → List (List Char)
  | [] => [[]]
  | c :: cs =>
    if c = '/' then [] :: segsL cs
    else
      match segsL cs with
      | [] => [[c]]
      | s :: ss => (c :: s) :: ss

/-- The nonempty path components of a character list. -/
def compsL (l : List Char) : List (List Char) :=
  (segsL l).filter (fun s => ¬s.isEmpty)

/-- The nonempty `/`-separated components of a path string. -/
def pathComps (s : String) : List String :=
  (compsL s.data).map (fun l => ⟨l⟩)

/-- One step of the `posixpath.normpath` component loop:
skip `.`, push ordinary components, resolve `..` against the accumulator. -/
def normStep (slashes : Nat) (acc : List String) (comp : String) : List String :=
  if comp = "." then acc
  else if comp ≠ ".." || (slashes = 0 && acc.isEmpty) ||
      (¬acc.isEmpty && acc.getLast? = some "..") then acc ++ [comp]
  else if ¬acc.isEmpty then acc.dropLast
  else acc

/-- Model of `posixpath.normpath`. -/
def pyNormpath (s : String) : String :=
  if s = "" then "."
  else
    let slashes : Nat :=
      if pyStartsWith s "//" && ¬pyStartsWith s "///" then 2
      else if pyStartsWith s "/" then 1 else 0
    let comps := (pathComps s).foldl (normStep slashes) []
    let body := String.intercalate "/" comps
    let res := (String.mk (List.replicate slashes '/')) ++ body
    if res = "" then "." else res

/-- Model of `os.path.abspath` relative to an explicit current working
directory `cwd` (Python reads it from the process state). -/
def pyAbspath (cwd p : String) : String :=
  pyNormpath (if pyIsAbs p then p else pyJoin cwd p)

/-- Position after the last `'/'` in the reversed list, used by `pyDirname`. -/
def dirnameSplit (l : List Char) : List Char :=
  -- characters of `l` up to and including the last '/', or [] if no '/'
  ((l.reverse.dropWhile (fun c => c ≠ '/'))).reverse

/-- Model of `posixpath.dirname`: everything up to the final slash, with
trailing slashes stripped unless the head is all slashes. -/
def pyDirname (p : String) : String :=
  let head := dirnameSplit p.data
  if head.isEmpty then ""
  else if head.all (fun c => c = '/') then ⟨head⟩
  else ⟨(head.reverse.dropWhile (fun c => c = '/')).reverse⟩

/-! ## `VariableStore` (executor.py lines 14-49) -/

/-- `VariableStore`: the executor's name-to-value mapping.  Python stores a
`dict`; we model it as an association list where `set` overwrites in place. -/
structure VariableStore where
  vars : List (String × String)
  deriving DecidableEq, Repr

namespace VariableStore

/-- `VariableStore.set`: dict assignment (overwrite existing key, else add). -/
def set (st : VariableStore) (name value : String) : VariableStore :=
  if (st.vars.lookup name).isSome then
    ⟨st.vars.map (fun p => if p.1 = name then (name, value) else p)⟩
  else ⟨st.vars ++ [(name, value)]⟩

/-- `VariableStore.get` with an explicit default (Python default `""`). -/
def get (st : VariableStore) (name dflt : String) : String :=
  (st.vars.lookup name).getD dflt

/-- First character of a `${VAR}` identifier: `[a-zA-Z_]`. -/
def identStart (c : Char) : Bool :=
  ('a' ≤ c && c ≤ 'z') || ('A' ≤ c && c ≤ 'Z') || c = '_'

/-- Later characters of a `${VAR}` identifier: `[a-zA-Z0-9_]`. -/
def identChar (c : Char) : Bool := identStart c || c.isDigit

/-- Try to read `{NAME}` (the part of the substitution pattern after `$`)
from the front of `cs`; on success return the identifier and the remainder. -/
def tokenAfterDollar : List Char → Option (List Char × List Char)
  | b :: c0 :: rest0 =>
    if b = '{' && identStart c0 then
      let run := rest0.takeWhile identChar
      match rest0.drop run.length with
      | d :: r => if d = '}' then some (c0 :: run, r) else none
      | [] => none
    else none
  | _ => none

theorem tokenAfterDollar_length {cs nm r : List Char}
    (h : tokenAfterDollar cs = some (nm, r)) : r.length < cs.length := by
  match cs with
  | [] => simp [tokenAfterDollar] at h
  | [c] => simp [tokenAfterDollar] at h
  | b :: c0 :: rest0 =>
    simp only [tokenAfterDollar] at h
    by_cases hb : (b = '{' && identStart c0) = true
    · simp only [hb, if_true] at h
      rcases hdrop : rest0.drop (rest0.takeWhile identChar).length with _ | ⟨d, tl⟩ <;>
        rw [hdrop] at h
      · simp at h
      · by_cases hd : d = '}'
        · simp only [hd, if_true, Option.some.injEq, Prod.mk.injEq] at h
          have hlen : (rest0.drop (rest0.takeWhile identChar).length).length ≤ rest0.length := by
            simp
          rw [hdrop] at hlen
          have hr : r = tl := h.2.symm
          subst hr
          simp only [List.length_cons] at hlen ⊢
          omega
        · simp [hd] at h
    · simp [hb] at h

/-- Fuel-indexed core of `VariableStore.substitute`: the left-to-right,
non-overlapping scan performed by `re.sub` with pattern
`\$\{([a-zA-Z_][a-zA-Z0-9_]*)\}` — a resolvable token is replaced by the
stored value, an unresolvable one is kept verbatim, and scanning resumes
after the matched token (never inside a replacement). -/
def substF (st : VariableStore) : Nat → List Char → List Char
  | 0, l => l
  | _ + 1, [] => []
  | fuel + 1, c :: cs =>
    if c = '$' then
      match tokenAfterDollar cs with
      | some (nm, rest) =>
        (match st.vars.lookup (⟨nm⟩ : String) with
          | some v => v.data
          | none => '$' :: '{' :: nm ++ ['}']) ++ substF st fuel rest
      | none => c :: substF st fuel cs
    else c :: substF st fuel cs

/-- `VariableStore.substitute` (executor.py lines 33-49). -/
def substitute (st : VariableStore) (text : String) : String :=
  ⟨substF st text.data.length text.data⟩

/-- Names of the `${NAME}` tokens found by the substitution scan, in order. -/
def scanTokensF (st : VariableStore) : Nat → List Char → List String
  | 0, _ => []
  | _ + 1, [] => []
  | fuel + 1, c :: cs =>
    if c = '$' then
      match tokenAfterDollar cs with
      | some (nm, rest) => (⟨nm⟩ : String) :: scanTokensF st fuel rest
      | none => scanTokensF st fuel cs
    else scanTokensF st fuel cs

/-- Names of the `${NAME}` tokens occurring in a string. -/
def scanTokens (st : VariableStore) (text : String) : List String :=
  scanTokensF st text.data.length text.data

/-- Does the text contain any `${NAME}` token? -/
def containsToken (st : VariableStore) (text : String) : Bool :=
  ¬(scanTokens st text).isEmpty

/-- Fuel-indexed check that every `$` in the text begins a `${NAME}` token
whose name is present in the store. -/
def dollarsOkF (st : VariableStore) : Nat → List Char → Bool
  | 0, l => l.isEmpty
  | _ + 1, [] => true
  | fuel + 1, c :: cs =>
    if c = '$' then
      match tokenAfterDollar cs with
      | some (nm, rest) =>
        (st.vars.lookup (⟨nm⟩ : String)).isSome && dollarsOkF st fuel rest
      | none => false
    else dollarsOkF st fuel cs

/-- Every `$` in the text begins a `${NAME}` token resolvable in the store. -/
def dollarsOk (st : VariableStore) (text : String) : Bool :=
  dollarsOkF st text.data.length text.data

/-- No value stored in the store contains a `$` character. -/
def valuesDollarFree (st : VariableStore) : Bool :=
  st.vars.all (fun p => !(p.2.data.contains '$'))

end VariableStore

/-! ## `PathSandbox` (executor.py lines 52-90) -/

namespace PathSandbox

/-- `PathSandbox.validate_path(path, base_dir, allow_outside)`, relative to an
explicit process working directory `cwd` (used by `os.path.abspath`).  Returns
`(is_valid, resolved_path, error_message)`.  The `except ValueError` branch
for Windows drive mismatches cannot fire on POSIX `os.path.relpath` and is
therefore not modelled. -/
def validate_path (path baseDir : String) (allowOutside : Bool) (cwd : String) :
    Bool × String × String :=
  if pyIsAbs path && ¬allowOutside then
    (false, "", "Absolute paths are not allowed for safety reasons")
  else
    let resolved :=
      if pyIsAbs path then pyAbspath cwd path
      else pyAbspath cwd (pyJoin baseDir path)
    if ¬allowOutside then
      let baseAbs := pyAbspath cwd baseDir
      if ¬((baseAbs ++ "/").data.isPrefixOf resolved.data) && resolved ≠ baseAbs then
        (false, "", "Path traversal outside working directory not allowed: " ++ path)
      else (true, resolved, "")
    else (true, resolved, "")

end PathSandbox

/-! ## A model of Python `re` (the subset the Validator exercises)

`Validator.validate` only needs `re.compile`/`re.search`: whether the pattern
compiles (invalid patterns raise `re.error`, which the validator catches) and
whether it matches anywhere in the output.  We model a core regex language:
literals, escapes, `.`, bracket classes, `|`, concatenation, `*` `+` `?`,
groups, and the `^` `$` anchors with `re.MULTILINE` semantics (the flag the
validator always passes).  Counted repetitions `{m,n}` are treated as literal
braces and possessive quantifiers are not modelled; no claim depends on them. -/

inductive RE where
  | eps
  | chr (c : Char)
  | dot
  | dcls (neg : Bool) (kind : Char)
  | bcls (neg : Bool) (items : List (Char × Char))
  | anchStart
  | anchEnd
  | alt (a b : RE)
  | cat (a b : RE)
  | star (a : RE)
  deriving DecidableEq, Repr

/-- Parse the items of a bracket class after `[` (and optional `^`).  The
first character may be `]` taken literally; a trailing `-` is literal. -/
def parseClassItems (firstItem : Bool) (acc : List (Char × Char)) :
    Nat → List Char → Except String (List (Char × Char) × List Char)
  | 0, _ => .error "unterminated character set"
  | _ + 1, [] => .error "unterminated character set"
  | fuel + 1, c :: cs =>
    if c = ']' && ¬firstItem then .ok (acc, cs)
    else
      match cs with
      | '-' :: d :: cs2 =>
        if d = ']' then
          -- trailing '-' is a literal member
          .ok (acc ++ [(c, c), ('-', '-')], cs2)
        else if c.toNat ≤ d.toNat then
          parseClassItems false (acc ++ [(c, d)]) fuel cs2
        else .error "bad character range"
      | _ => parseClassItems false (acc ++ [(c, c)]) fuel cs

/-- Parse one atom of the pattern.  Returns the atom and the remaining
input.  `parseAltF` is passed in explicitly to break the mutual recursion. -/
def parseAtomF
    (pAlt : List Char → Except String (RE × List Char)) :
    Nat → List Char → Except String (RE × List Char)
  | 0, _ => .error "pattern recursion limit"
  | _ + 1, [] => .error "internal: empty atom"
  | fuel + 1, c :: cs =>
    if c = '(' then
      match pAlt cs with
      | .error e => .error e
      | .ok (r, rest) =>
        match rest with
        | ')' :: rest2 => .ok (r, rest2)
        | _ => .error "missing ), unterminated subpattern"
    else if c = '*' || c = '+' || c = '?' then .error "nothing to repeat"
    else if c = '.' then .ok (.dot, cs)
    else if c = '^' then .ok (.anchStart, cs)
    else if c = '$' then .ok (.anchEnd, cs)
    else if c = '[' then
      match cs with
      | '^' :: cs2 =>
        match parseClassItems true [] fuel cs2 with
        | .error e => .error e
        | .ok (items, rest) => .ok (.bcls true items, rest)
      | _ =>
        match parseClassItems true [] fuel cs with
        | .error e => .error e
        | .ok (items, rest) => .ok (.bcls false items, rest)
    else if c = '\\' then
      match cs with
      | [] => .error "bad escape (end of pattern)"
      | e :: cs2 =>
        if e = 'd' || e = 'D' || e = 'w' || e = 'W' || e = 's' || e = 'S' then
          .ok (.dcls (e.isUpper) (e.toLower), cs2)
        else if e = 'n' then .ok (.chr '\n', cs2)
        else if e = 't' then .ok (.chr '\t', cs2)
        else if e = 'r' then .ok (.chr '\r', cs2)
        else if e.isAlpha then .error ("bad escape \\" ++ String.mk [e])
        else .ok (.chr e, cs2)
    else .ok (.chr c, cs)

/-- Apply postfix quantifiers after an atom; a second immediate quantifier is
a "multiple repeat" error. -/
def parsePostfix (r : RE) : List Char → Except String (RE × List Char)
  | '*' :: cs =>
    match cs with
    | '*' :: _ => .error "multiple repeat"
    | '+' :: _ => .error "multiple repeat"
    | '?' :: _ => .error "multiple repeat"
    | _ => .ok (.star r, cs)
  | '+' :: cs =>
    match cs with
    | '*' :: _ => .error "multiple repeat"
    | '+' :: _ => .error "multiple repeat"
    | '?' :: _ => .error "multiple repeat"
    | _ => .ok (.cat r (.star r), cs)
  | '?' :: cs =>
    match cs with
    | '*' :: _ => .error "multiple repeat"
    | '+' :: _ => .error "multiple repeat"
    | '?' :: _ => .error "multiple repeat"
    | _ => .ok (.alt r .eps, cs)
  | cs => .ok (r, cs)

/-- Parse a concatenation: atoms with postfixes until end, `|` or `)`. -/
def parseCatF
    (pAlt : List Char → Except String (RE × List Char)) :
    Nat → RE → List Char → Except String (RE × List Char)
  | 0, _, _ => .error "pattern recursion limit"
  | _ + 1, acc, [] => .ok (acc, [])
  | fuel + 1, acc, c :: cs =>
    if c = '|' || c = ')' then .ok (acc, c :: cs)
    else
      match parseAtomF pAlt fuel (c :: cs) with
      | .error e => .error e
      | .ok (a, rest) =>
        match parsePostfix a rest with
        | .error e => .error e
        | .ok (a2, rest2) => parseCatF pAlt fuel (.cat acc a2) rest2

/-- Parse an alternation (the full pattern grammar). -/
def parseAltF : Nat → List Char → Except String (RE × List Char)
  | 0, _ => .error "pattern recursion limit"
  | fuel + 1, cs =>
    match parseCatF (parseAltF fuel) fuel .eps cs with
    | .error e => .error e
    | .ok (a, rest) =>
      match rest with
      | '|' :: rest2 =>
        match parseAltF fuel rest2 with
        | .error e => .error e
        | .ok (b, rest3) => .ok (.alt a b, rest3)
      | _ => .ok (a, rest)

/-- Model of `re.compile(pattern)`: `Except` error where Python raises
`re.error`. -/
def reCompile (pat : String) : Except String RE :=
  match parseAltF (3 * pat.data.length + 8) pat.data with
  | .error e => .error e
  | .ok (r, []) => .ok r
  | .ok (_, ')' :: _) => .error "unbalanced parenthesis"
  | .ok (_, _) => .error "internal: unconsumed pattern"

/-- Does character `c` belong to the `\d`/`\w`/`\s` class named `kind`? -/
def dclsMem (kind : Char) (c : Char) : Bool :=
  if kind = 'd' then c.isDigit
  else if kind = 'w' then c.isAlphanum || c = '_'
  else pyIsSpace c

/-- Size of a regex, used to budget matcher fuel. -/
def reSize : RE → Nat
  | .eps => 1
  | .chr _ => 1
  | .dot => 1
  | .dcls _ _ => 1
  | .bcls _ _ => 1
  | .anchStart => 1
  | .anchEnd => 1
  | .alt a b => reSize a + reSize b + 1
  | .cat a b => reSize a + reSize b + 1
  | .star a => reSize a + 1

/-- Fuel-indexed continuation-passing matcher.  `prev` is the character just
before the current position (for `^` with `re.MULTILINE`); the continuation
receives the updated position.  The `star` case only re-enters the loop when
the body consumed input, mirroring the engine's empty-match rule. -/
def matchRE : Nat → RE → Option Char → List Char →
    (Option Char → List Char → Bool) → Bool
  | 0, _, _, _, _ => false
  | fuel + 1, r, prev, l, k =>
    match r with
    | .eps => k prev l
    | .chr c =>
      match l with
      | x :: xs => x = c && k (some x) xs
      | [] => false
    | .dot =>
      match l with
      | x :: xs => x ≠ '\n' && k (some x) xs
      | [] => false
    | .dcls neg kind =>
      match l with
      | x :: xs => (dclsMem kind x != neg) && k (some x) xs
      | [] => false
    | .bcls neg items =>
      match l with
      | x :: xs =>
        (items.any (fun p => p.1.toNat ≤ x.toNat && x.toNat ≤ p.2.toNat) != neg)
          && k (some x) xs
      | [] => false
    | .anchStart => (prev = none || prev = some '\n') && k prev l
    | .anchEnd => (l.isEmpty || l.head? = some '\n') && k prev l
    | .alt a b => matchRE fuel a prev l k || matchRE fuel b prev l k
    | .cat a b => matchRE fuel a prev l (fun p' l' => matchRE fuel b p' l' k)
    | .star a =>
      k prev l ||
        matchRE fuel a prev l (fun p' l' =>
          if l'.length < l.length then matchRE fuel (.star a) p' l' k else false)

/-- Try a match starting at each position in turn (`re.search` scan). -/
def searchGo (r : RE) (fuel : Nat) : Option Char → List Char → Bool
  | prev, l =>
    matchRE fuel r prev l (fun _ _ => true) ||
      match l with
      | [] => false
      | c :: cs => searchGo r fuel (some c) cs

/-- Model of `re.search(r, text, re.MULTILINE)` viewed as a boolean. -/
def reSearch (r : RE) (text : String) : Bool :=
  searchGo r ((reSize r + 2) * (text.data.length + 2) * 2) none text.data

/-! ## The document model (parser.py lines 12-44, spec section 3) -/

/-- Modelled from the spec: the `out_var` / `out_file` / `code_var` capture
targets (spec section 3, "CodeBlock") are missing from the `CodeBlock`
dataclass in `src/guiderails/parser.py` lines 12-23, although `executor.py`
and the test suite use them; those three fields follow the spec and the tests,
and every other field follows the source dataclass (with its defaults
`language="bash"`, `mode="exit"`, `expected="0"`, `timeout=30`). -/
structure CodeBlock where
  code : String
  language : String := "bash"
  mode : String := "exit"
  expected : String := "0"
  timeout : Int := 30
  workingDir : Option String := none
  continueOnError : Bool := false
  lineNumber : Nat := 0
  outVar : Option String := none
  outFile : Option String := none
  codeVar : Option String := none
  deriving DecidableEq, Repr

/-- Modelled from the spec: the `FileBlock` dataclass (spec section 3,
"FileBlock") is referenced by `executor.py` (`from .parser import ...
FileBlock`) and the tests but is absent from `src/guiderails/parser.py`;
fields and defaults follow spec section 3 and the constructions in
`tests/test_executor.py` (`code`, `path`, `mode` in write/append, `executable`,
`template` in none/shell, `once`, source line number). -/
structure FileBlock where
  code : String
  path : String
  mode : String := "write"
  executable : Bool := false
  template : String := "none"
  once : Bool := false
  lineNumber : Nat := 0
  deriving DecidableEq, Repr

/-- `ExecutionResult` (executor.py lines 93-101). -/
structure ExecutionResult where
  success : Bool
  exitCode : Int
  stdout : String
  stderr : String
  errorMessage : Option String := none
  deriving DecidableEq, Repr

/-! ## `Validator` (executor.py lines 104-159) -/

namespace Validator

/-- `Validator.validate(result, code_block)` (executor.py lines 107-159).
The value is `Except.error` exactly where the Python code lets an exception
escape: the unguarded `int(expected)` in the `exit` branch.  The `re.error`
raised by an invalid pattern in the `regex` branch is caught by the source and
surfaces as an `(False, "Invalid regex pattern: ...")` pair. -/
def validate (result : ExecutionResult) (cb : CodeBlock) :
    Except PyErr (Bool × String) :=
  let mode := cb.mode
  let expected := cb.expected
  if mode = "exit" then
    match pyInt expected with
    | none => .error (.valueError expected)
    | some n =>
      if result.exitCode = n then
        .ok (true, "Exit code matched: " ++ toString n)
      else
        .ok (false, "Exit code " ++ toString result.exitCode ++
          " != expected " ++ toString n)
  else if mode = "contains" then
    let output := result.stdout ++ result.stderr
    if pyContains output expected then
      .ok (true, "Output contains: '" ++ expected ++ "'")
    else
      .ok (false, "Output does not contain: '" ++ expected ++ "'")
  else if mode = "regex" then
    let output := result.stdout ++ result.stderr
    match reCompile expected with
    | .error e => .ok (false, "Invalid regex pattern: " ++ e)
    | .ok r =>
      if reSearch r output then
        .ok (true, "Output matches regex: " ++ expected)
      else
        .ok (false, "Output does not match regex: " ++ expected)
  else if mode = "exact" then
    let output := pyStrip (result.stdout ++ result.stderr)
    let expectedStripped := pyStrip expected
    if output = expectedStripped then
      .ok (true, "Output matches exactly")
    else
      .ok (false, "Output does not match exactly.\nExpected:\n" ++
        expectedStripped ++ "\nGot:\n" ++ output)
  else
    .ok (false, "Unknown validation mode: " ++ mode)

end Validator

/-! ## Filesystem model (for `Executor.write_file`) -/

/-- A filesystem entry: a regular file with content and permission bits, or a
directory. -/
inductive FSEntry where
  | file (content : String) (mode : Nat)
  | dir
  deriving DecidableEq, Repr

/-- A filesystem: a finite map from absolute paths to entries. -/
structure FS where
  entries : List (String × FSEntry)
  deriving DecidableEq, Repr

namespace FS

/-- `os.path.exists`. -/
def exists_ (fs : FS) (p : String) : Bool := (fs.entries.lookup p).isSome

/-- Entry lookup. -/
def find (fs : FS) (p : String) : Option FSEntry := fs.entries.lookup p

/-- Replace or insert an entry. -/
def put (fs : FS) (p : String) (e : FSEntry) : FS :=
  if (fs.entries.lookup p).isSome then
    ⟨fs.entries.map (fun q => if q.1 = p then (p, e) else q)⟩
  else ⟨fs.entries ++ [(p, e)]⟩

/-- Ensure one directory exists: error (`FileExistsError` with
`exist_ok=True` still raising because the entry is not a directory) when the
path is a regular file; create it when absent. -/
def mkdirOne (fs : FS) (p : String) : Except PyErr FS :=
  match fs.find p with
  | some .dir => .ok fs
  | some (.file _ _) => .error (.osError ("FileExistsError: " ++ p))
  | none => .ok (fs.put p .dir)

/-- Model of `os.makedirs(p, exist_ok=True)`: ensure every ancestor listed in
`prefixes` (shortest first) and `p` itself is a directory. -/
def mkdirsAlong (fs : FS) : List String → Except PyErr FS
  | [] => .ok fs
  | q :: qs =>
    match fs.mkdirOne q with
    | .error e => .error e
    | .ok fs1 => mkdirsAlong fs1 qs

/-- The absolute-path prefixes of an absolute path, shortest first, the path
itself included (e.g. `/a/b` to `["/", "/a", "/a/b"]`). -/
def ancestors (p : String) : List String :=
  let comps := pathComps p
  let rec build (base : String) : List String → List String
    | [] => []
    | c :: cs =>
      let q := if base = "/" then base ++ c else base ++ "/" ++ c
      q :: build q cs
  "/" :: build "/" comps

/-- Model of `os.makedirs(p, exist_ok=True)` on an absolute path. -/
def makedirs (fs : FS) (p : String) : Except PyErr FS :=
  fs.mkdirsAlong (ancestors p)

/-- Model of `open(p, mode).write(content)` followed by the conditional
trailing newline the executor writes: truncate or append; raising
(`IsADirectoryError`) when the target is a directory. A file created fresh
gets mode `0o644`. -/
def openWrite (fs : FS) (p : String) (append : Bool) (content : String) :
    Except PyErr FS :=
  let payload := content ++ (if pyEndsWith content "\n" then "" else "\n")
  match fs.find p with
  | some .dir => .error (.osError ("IsADirectoryError: " ++ p))
  | some (.file old m) =>
    .ok (fs.put p (.file (if append then old ++ payload else payload) m))
  | none => .ok (fs.put p (.file payload 420))

/-- Model of `os.chmod(p, stat | S_IXUSR | S_IXGRP | S_IXOTH)` preceded by
`os.stat`: raising when the path is missing. -/
def chmodExec (fs : FS) (p : String) : Except PyErr FS :=
  match fs.find p with
  | some (.file c m) => .ok (fs.put p (.file c (m.lor 73)))
  | some .dir => .ok fs
  | none => .error (.osError ("FileNotFoundError: " ++ p))

/-- Model of `os.path.getsize`: byte size of the file's content. -/
def getsize (fs : FS) (p : String) : Nat :=
  match fs.find p with
  | some (.file c _) => c.utf8ByteSize
  | _ => 0

end FS

/-! ## `Executor` (executor.py lines 162-344) -/

/-- The immutable configuration of one `Executor` instance: the base working
directory, the `allow_outside` flag, and the process working directory used by
`os.path.abspath` / `os.getcwd`. -/
structure ExecCfg where
  baseWorkingDir : String
  allowOutside : Bool
  cwd : String
  deriving DecidableEq, Repr

/-- Outcome of `subprocess.run(command, shell=True, cwd=..., timeout=...)`:
normal completion with exit code and captured text, `TimeoutExpired`, or any
other launch exception. -/
inductive RunOutcome where
  | completed (returncode : Int) (stdout stderr : String)
  | timedOut
  | failed (msg : String)
  deriving DecidableEq, Repr

/-- The process/filesystem environment `execute_code_block` interacts with:
whether a working directory exists, what the shell invocation produces, and
the result of writing the `out_file` capture (`none` = wrote fine, `some e` =
the exception message of the failed write). -/
structure World where
  dirExists : String → Bool
  run : String → String → Int → RunOutcome
  writeOut : String → String → Option String

namespace Executor

/-- Working-directory resolution in `execute_code_block` (executor.py lines
244-252), including the Python truthiness test `if code_block.working_dir:`
(an empty-string override is falsy and means "use the base directory"). -/
def resolveWorkingDir (cfg : ExecCfg) (cb : CodeBlock) : String :=
  match cb.workingDir with
  | some wd =>
    if wd = "" then cfg.baseWorkingDir
    else if pyIsAbs wd then wd
    else pyJoin cfg.baseWorkingDir wd
  | none => cfg.baseWorkingDir

/-- `Executor.execute_code_block` (executor.py lines 232-324).  Returns the
`ExecutionResult` together with the variable store after the capture
side-effects.  The Python truthiness tests on `out_var` / `out_file` /
`code_var` are modelled exactly (`some ""` is falsy). -/
def execute_code_block (cfg : ExecCfg) (store : VariableStore) (cb : CodeBlock)
    (w : World) : ExecutionResult × VariableStore :=
  let command := store.substitute cb.code
  let workingDir := resolveWorkingDir cfg cb
  if ¬w.dirExists workingDir then
    ({ success := false, exitCode := -1, stdout := "", stderr := "",
       errorMessage := some ("Working directory does not exist: " ++ workingDir) },
     store)
  else
    match w.run command workingDir cb.timeout with
    | .completed rc out err =>
      let result0 : ExecutionResult :=
        { success := rc == 0, exitCode := rc, stdout := out, stderr := err,
          errorMessage := none }
      let store1 :=
        match cb.outVar with
        | some ov => if ov = "" then store else store.set ov (pyStrip (out ++ err))
        | none => store
      let result1 :=
        match cb.outFile with
        | some of =>
          if of = "" then result0
          else
            let v := PathSandbox.validate_path of cfg.baseWorkingDir
              cfg.allowOutside cfg.cwd
            if v.1 then
              match w.writeOut v.2.1 out with
              | some e =>
                let wmsg := "Warning: Failed to write output file: " ++ e
                { result0 with errorMessage := some wmsg }
              | none => result0
            else result0
        | none => result0
      let store2 :=
        match cb.codeVar with
        | some cv => if cv = "" then store1 else store1.set cv (toString rc)
        | none => store1
      (result1, store2)
    | .timedOut =>
      ({ success := false, exitCode := -1, stdout := "", stderr := "",
         errorMessage := some ("Command timed out after " ++ toString cb.timeout ++
           " seconds") }, store)
    | .failed msg =>
      ({ success := false, exitCode := -1, stdout := "", stderr := "",
         errorMessage := some ("Execution error: " ++ msg) }, store)

/-- `Executor.write_file` (executor.py lines 183-230).  The result is
`Except.error` exactly where the Python code lets an exception escape: the
`os.makedirs` call at lines 209-211 sits **outside** the `try` block, so a
failure creating parent directories propagates; everything from `open`
onwards is inside the `try` and is converted to a `(False, message)` pair. -/
def write_file (cfg : ExecCfg) (store : VariableStore) (fb : FileBlock)
    (fs : FS) : Except PyErr ((Bool × String) × FS) :=
  let v := PathSandbox.validate_path fb.path cfg.baseWorkingDir
    cfg.allowOutside cfg.cwd
  if ¬v.1 then .ok ((false, v.2.2), fs)
  else
    let resolved := v.2.1
    if fb.once && fs.exists_ resolved then
      .ok ((true, "File already exists, skipping (once=true): " ++ fb.path), fs)
    else
      let content := if fb.template = "shell" then store.substitute fb.code
        else fb.code
      let parentDir := pyDirname resolved
      match (if parentDir ≠ "" then fs.makedirs parentDir else .ok fs) with
      | .error e => .error e
      | .ok fs1 =>
        match fs1.openWrite resolved (fb.mode = "append") content with
        | .error e =>
          .ok ((false, "Failed to write file: " ++ pyErrStr e), fs1)
        | .ok fs2 =>
          match (if fb.executable then fs2.chmodExec resolved else .ok fs2) with
          | .error e =>
            .ok ((false, "Failed to write file: " ++ pyErrStr e), fs2)
          | .ok fs3 =>
            .ok ((true, "Wrote " ++ toString (fs3.getsize resolved) ++
              " bytes to " ++ fb.path), fs3)

end Executor

/-! ## `MarkdownParser` (parser.py lines 47-260) -/

/-- The attribute bag produced by `MarkdownParser._parse_attributes`:
`{"classes": [...], "id": ..., "data": {...}}`. -/
structure Attrs where
  classes : List String
  id : Option String
  data : List (String × String)
  deriving DecidableEq, Repr

/-- The empty attribute dictionary (`attrs = {}` on a heading without an
attribute block: `attrs.get("classes", [])` is `[]`, `attrs.get("id")` is
`None`). -/
def emptyAttrs : Attrs := ⟨[], none, []⟩

/-- Python dict assignment on an association list (overwrite or append). -/
def assocSet (m : List (String × String)) (k v : String) :
    List (String × String) :=
  if (m.lookup k).isSome then
    m.map (fun q => if q.1 = k then (k, v) else q)
  else m ++ [(k, v)]

/-- Characters of the attribute word class `[a-zA-Z0-9_-]`. -/
def wordDash (c : Char) : Bool := c.isAlphanum || c = '_' || c = '-'

/-- `CLASS_PATTERN.finditer`: every `.name` occurrence, left to right,
non-overlapping, with greedy runs. -/
def scanClassesF : Nat → List Char → List String
  | 0, _ => []
  | _ + 1, [] => []
  | fuel + 1, c :: cs =>
    if c = '.' then
      let run := cs.takeWhile wordDash
      if run.isEmpty then scanClassesF fuel cs
      else (⟨run⟩ : String) :: scanClassesF fuel (cs.drop run.length)
    else scanClassesF fuel cs

/-- `ID_PATTERN.search`: the first `#name` occurrence. -/
def scanIdF : Nat → List Char → Option String
  | 0, _ => none
  | _ + 1, [] => none
  | fuel + 1, c :: cs =>
    if c = '#' then
      let run := cs.takeWhile wordDash
      if run.isEmpty then scanIdF fuel cs else some (⟨run⟩ : String)
    else scanIdF fuel cs

/-- Attempt a `DATA_PATTERN` match at the current position:
`data-KEY=` then either a quoted value (non-greedy to the matching quote,
at least one character) or an unquoted run `[^\s}]+`.  Returns the pair and
the input after the match. -/
def tryDataMatch (l : List Char) : Option ((String × String) × List Char) :=
  match l with
  | 'd' :: 'a' :: 't' :: 'a' :: '-' :: rest =>
    let key := rest.takeWhile wordDash
    if key.isEmpty then none
    else
      match rest.drop key.length with
      | '=' :: vrest =>
        let unquoted : Option ((String × String) × List Char) :=
          let uval := vrest.takeWhile (fun c => ¬pyIsSpace c && c ≠ '}')
          if uval.isEmpty then none
          else some (((⟨key⟩ : String), (⟨uval⟩ : String)),
            vrest.drop uval.length)
        match vrest with
        | q :: vrest2 =>
          if q = '"' || q = '\'' then
            let val := vrest2.takeWhile (fun c => c ≠ q)
            if val.isEmpty then unquoted
            else
              match vrest2.drop val.length with
              | _ :: after => some (((⟨key⟩ : String), (⟨val⟩ : String)), after)
              | [] => unquoted
          else unquoted
        | [] => none
      | _ => none
  | _ => none

/-- `DATA_PATTERN.finditer`: all `data-key=value` matches in order. -/
def scanDataF : Nat → List Char → List (String × String)
  | 0, _ => []
  | _ + 1, [] => []
  | fuel + 1, c :: cs =>
    match tryDataMatch (c :: cs) with
    | some (kv, after) => kv :: scanDataF fuel after
    | none => scanDataF fuel cs

/-- `MarkdownParser._parse_attributes` (parser.py lines 223-243): collect
classes, the first id, and the `data-` pairs (later pairs overwrite earlier
ones with the same key, as dict assignment does). -/
def parse_attributes (attrString : String) : Attrs :=
  { classes := scanClassesF attrString.data.length attrString.data
    id := scanIdF attrString.data.length attrString.data
    data := (scanDataF attrString.data.length attrString.data).foldl
      (fun m kv => assocSet m kv.1 kv.2) [] }

/-- `MarkdownParser._create_code_block` (parser.py lines 245-260).
`Except.error` exactly where `int(data.get("timeout", 30))` raises. -/
def create_code_block (code lang : String) (attrs : Attrs) (lineNumber : Nat) :
    Except PyErr CodeBlock :=
  let data := attrs.data
  let timeoutVal : Except PyErr Int :=
    match data.lookup "timeout" with
    | none => .ok 30
    | some v =>
      match pyInt v with
      | some n => .ok n
      | none => .error (.valueError v)
  match timeoutVal with
  | .error e => .error e
  | .ok t =>
    .ok { code := pyStrip code
          language := lang
          mode := ((data.lookup "mode").getD "exit")
          expected := ((data.lookup "exp").getD ((data.lookup "expected").getD "0"))
          timeout := t
          workingDir := data.lookup "workdir"
          continueOnError := pyLower ((data.lookup "continue-on-error").getD "") = "true"
          lineNumber := lineNumber
          outVar := none
          outFile := none
          codeVar := none }

/-- Python `parts.split(None, 1)` on an already-stripped string: the first
whitespace-delimited token, and the remainder starting at its first
non-whitespace character. -/
def splitWsOnce (s : String) : List String :=
  let l := s.data.dropWhile pyIsSpace
  match l with
  | [] => []
  | _ =>
    let t1 := l.takeWhile (fun c => ¬pyIsSpace c)
    let rem := (l.drop t1.length).dropWhile pyIsSpace
    if rem.isEmpty then [(⟨t1⟩ : String)]
    else [(⟨t1⟩ : String), (⟨rem⟩ : String)]

/-- Python `line.split("{", 1)`: the part before the first `{` and, when a
`{` occurs, the part after it. -/
def splitBraceOnce (s : String) : String × Option String :=
  let before := s.data.takeWhile (fun c => c ≠ '{')
  match s.data.drop before.length with
  | _ :: after => ((⟨before⟩ : String), some (⟨after⟩ : String))
  | [] => ((⟨before⟩ : String), none)

/-- The heading-processing prefix of the `#` branch of `parse_markdown`
(parser.py lines 167-183): heading text and the attribute bag taken either
from the same line after `{`, or from the immediately following line when it
starts with `{`. -/
def headingInfo (line : String) (next : Option String) : String × Attrs :=
  let defaultText := pyStrip (pyLstripHash (pyStrip line))
  match (splitBraceOnce line).2 with
  | some after =>
    (pyStrip (pyLstripHash (pyStrip (splitBraceOnce line).1)),
      parse_attributes ("\x7b" ++ after))
  | none =>
    match next with
    | some nl =>
      if pyStartsWith (pyStrip nl) "\x7b" then (defaultText, parse_attributes (pyStrip nl))
      else (defaultText, emptyAttrs)
    | none => (defaultText, emptyAttrs)

/-- One element of a step's ordered `content_parts`. -/
inductive ContentPart where
  | text (s : String)
  | block (cb : CodeBlock)
  deriving DecidableEq, Repr

/-- `Step` (parser.py lines 26-35); `file_blocks` does not exist in the
source dataclass. -/
structure Step where
  title : String
  content : String
  stepId : Option String
  codeBlocks : List CodeBlock
  lineNumber : Nat
  contentParts : List ContentPart
  deriving DecidableEq, Repr

/-- `Tutorial` (parser.py lines 38-44). -/
structure Tutorial where
  title : String
  source : String
  steps : List Step
  deriving DecidableEq, Repr

/-- The local state of the `parse_markdown` line loop. -/
structure PState where
  title : String
  steps : List Step
  currentStep : Option Step
  inCode : Bool
  codeContent : List String
  codeAttrs : Attrs
  codeLang : String
  codeStart : Nat
  buffer : List String
  deriving DecidableEq, Repr

/-- The initial loop state of `parse_markdown`. -/
def initPState : PState :=
  { title := "", steps := [], currentStep := none, inCode := false,
    codeContent := [], codeAttrs := emptyAttrs, codeLang := "bash",
    codeStart := 0, buffer := [] }

/-- Flush the content buffer into a step's `content_parts` (parser.py lines
117-121, 189-193, 212-215): join with newlines, append only when the joined
text has non-whitespace content. -/
def flushInto (cur : Step) (buffer : List String) : Step :=
  if buffer.isEmpty then cur
  else
    let text := String.intercalate "\n" buffer
    if pyStrip text ≠ "" then
      { cur with contentParts := cur.contentParts ++ [ContentPart.text text] }
    else cur

/-- The line loop of `MarkdownParser.parse_markdown` (parser.py lines
112-221), written as structural recursion over the remaining lines; the
next-line attribute lookahead `lines[line_num]` is the head of the remaining
list.  `Except.error` propagates the `ValueError` of
`_create_code_block`. -/
def parseLines (source : String) : PState → Nat → List String →
    Except PyErr Tutorial
  | st, _, [] =>
    let st1 :=
      match st.currentStep with
      | some cur => { st with steps := st.steps ++ [flushInto cur st.buffer] }
      | none => st
    .ok { title := if st1.title = "" then "Untitled Tutorial" else st1.title,
          source := source, steps := st1.steps }
  | st, lineNum, line :: rest =>
    if pyStartsWith (pyStrip line) "```" then
      if ¬st.inCode then
        let st1 :=
          match st.currentStep with
          | some cur =>
            if ¬st.buffer.isEmpty then
              { st with currentStep := some (flushInto cur st.buffer), buffer := [] }
            else st
          | none => st
        let parts := pyStrip (⟨(pyStrip line).data.drop 3⟩ : String)
        if parts ≠ "" then
          let tokens := splitWsOnce parts
          let lang := tokens.headD "bash"
          let attrs :=
            match tokens with
            | _ :: t1 :: _ =>
              if t1.data.contains '{' then parse_attributes t1 else emptyAttrs
            | _ => emptyAttrs
          parseLines source
            { st1 with
              inCode := true, codeContent := [], codeStart := lineNum,
              codeLang := lang, codeAttrs := attrs } (lineNum + 1) rest
        else
          parseLines source
            { st1 with
              inCode := true, codeContent := [], codeStart := lineNum,
              codeLang := "bash", codeAttrs := emptyAttrs } (lineNum + 1) rest
      else
        if "gr-run" ∈ st.codeAttrs.classes then
          match create_code_block (String.intercalate "\n" st.codeContent)
              st.codeLang st.codeAttrs st.codeStart with
          | .error e => .error e
          | .ok cb =>
            let st1 :=
              match st.currentStep with
              | some cur =>
                { st with
                    currentStep := some
                      { cur with
                        codeBlocks := cur.codeBlocks ++ [cb],
                        contentParts := cur.contentParts ++ [ContentPart.block cb] } }
              | none => st
            parseLines source
              { st1 with
                inCode := false, codeContent := [],
                codeAttrs := emptyAttrs, codeLang := "bash" } (lineNum + 1) rest
        else
          parseLines source
            { st with
              inCode := false, codeContent := [],
              codeAttrs := emptyAttrs, codeLang := "bash" } (lineNum + 1) rest
    else if st.inCode then
      parseLines source { st with codeContent := st.codeContent ++ [line] }
        (lineNum + 1) rest
    else if pyStartsWith (pyStrip line) "#" then
      let hi := headingInfo line rest.head?
      if "gr-step" ∈ hi.2.classes then
        let st1 :=
          match st.currentStep with
          | some cur =>
            { st with steps := st.steps ++ [flushInto cur st.buffer], buffer := [] }
          | none => st
        parseLines source
          { st1 with
            currentStep := some
              { title := hi.1, content := "", stepId := hi.2.id,
                codeBlocks := [], lineNumber := lineNum, contentParts := [] } }
          (lineNum + 1) rest
      else if st.title = "" && pyStartsWith (pyStrip line) "# " then
        parseLines source { st with title := hi.1 } (lineNum + 1) rest
      else
        parseLines source st (lineNum + 1) rest
    else
      match st.currentStep with
      | some cur =>
        parseLines source
          { st with
            currentStep := some { cur with content := cur.content ++ line ++ "\n" },
            buffer := st.buffer ++ [line] } (lineNum + 1) rest
      | none => parseLines source st (lineNum + 1) rest

/-- `MarkdownParser.parse_markdown(content, source)` (parser.py lines
100-221). -/
def parse_markdown (content : String) (source : String) : Except PyErr Tutorial :=
  parseLines source initPState 1 (pyLines content)

/-- Written from the claim: the text of the first top-level (`# `) heading
not carrying the `gr-step` marker that occurs outside code fences **before
any step heading**; `none` when a step heading comes first or no such heading
exists. -/
def titleScanBefore : Bool → List String → Option String
  | _, [] => none
  | ic, l :: ls =>
    if pyStartsWith (pyStrip l) "```" then titleScanBefore (¬ic) ls
    else if ic then titleScanBefore ic ls
    else if pyStartsWith (pyStrip l) "#" then
      let hi := headingInfo l ls.head?
      if "gr-step" ∈ hi.2.classes then none
      else if pyStartsWith (pyStrip l) "# " then some hi.1
      else titleScanBefore ic ls
    else titleScanBefore ic ls

/-- Written from the amended claim: the text of the first top-level (`# `)
heading outside code fences that does not carry the `gr-step` marker and has
nonempty text — anywhere in the document, before or after step headings. -/
def titleScanAll : Bool → List String → Option String
  | _, [] => none
  | ic, l :: ls =>
    if pyStartsWith (pyStrip l) "```" then titleScanAll (¬ic) ls
    else if ic then titleScanAll ic ls
    else if pyStartsWith (pyStrip l) "#" then
      let hi := headingInfo l ls.head?
      if "gr-step" ∈ hi.2.classes then titleScanAll ic ls
      else if pyStartsWith (pyStrip l) "# " && hi.1 ≠ "" then some hi.1
      else titleScanAll ic ls
    else titleScanAll ic ls

/-! ## Lemmas about the variable store and substitution -/

namespace VariableStore

theorem lookup_all {vars : List (String × String)} {nm v : String}
    {P : String × String → Bool} (hl : vars.lookup nm = some v)
    (ha : vars.all P = true) : P (nm, v) = true := by
  induction vars with
  | nil => simp [List.lookup] at hl
  | cons p rest ih =>
    rw [List.lookup] at hl
    rcases hbeq : (nm == p.1) with _ | _
    · rw [hbeq] at hl
      simp only [List.all_cons, Bool.and_eq_true] at ha
      exact ih hl ha.2
    · rw [hbeq] at hl
      have hv : p.2 = v := by simpa using hl
      have hnm : nm = p.1 := by simpa using hbeq
      simp only [List.all_cons, Bool.and_eq_true] at ha
      have := ha.1
      rw [hnm, ← hv]
      simpa using this

theorem substF_no_dollar (st : VariableStore) :
    ∀ (fuel : Nat) (l : List Char), '$' ∉ l → substF st fuel l = l := by
  intro fuel
  induction fuel with
  | zero => intro l _; rfl
  | succ f ih =>
    intro l h
    match l with
    | [] => rfl
    | c :: cs =>
      have hc : ¬c = '$' := by
        intro e
        exact h (e ▸ List.mem_cons_self c cs)
      have hcs : '$' ∉ cs := fun m => h (List.mem_cons_of_mem _ m)
      simp [substF, hc, ih cs hcs]

theorem substF_dollar_free (st : VariableStore)
    (hvals : st.valuesDollarFree = true) :
    ∀ (fuel : Nat) (l : List Char) (f2 : Nat), l.length ≤ fuel →
      l.length ≤ f2 → dollarsOkF st f2 l = true → '$' ∉ substF st fuel l := by
  intro fuel
  induction fuel with
  | zero =>
    intro l f2 hlen _ _
    have : l = [] := List.length_eq_zero.mp (Nat.le_zero.mp hlen)
    subst this
    simp [substF]
  | succ f ih =>
    intro l f2 hlen hlen2 hok
    match l with
    | [] => simp [substF]
    | c :: cs =>
      match f2, hlen2 with
      | g + 1, hlen2 =>
        by_cases hc : c = '$'
        · subst hc
          rcases htok : tokenAfterDollar cs with _ | ⟨nm, rest⟩
          · simp [dollarsOkF, htok] at hok
          · have hok2 : ((st.vars.lookup (⟨nm⟩ : String)).isSome
                && dollarsOkF st g rest) = true := by
              simpa [dollarsOkF, htok] using hok
            simp only [Bool.and_eq_true, Option.isSome_iff_exists] at hok2
            obtain ⟨⟨v, hv⟩, hrest⟩ := hok2
            have hlt := tokenAfterDollar_length htok
            have hcs : cs.length ≤ f := by
              simpa using hlen
            have hcs2 : cs.length ≤ g := by
              simpa using hlen2
            have hihr : '$' ∉ substF st f rest :=
              ih rest g (Nat.le_trans (Nat.le_of_lt hlt) hcs)
                (Nat.le_trans (Nat.le_of_lt hlt) hcs2) hrest
            have hvd : '$' ∉ v.data := by
              have hp := lookup_all hv hvals
              simp only [Bool.not_eq_true'] at hp
              simpa using hp
            simp only [substF, htok, hv]
            intro hm
            rcases List.mem_append.mp hm with h1 | h1
            · exact hvd h1
            · exact hihr h1
        · have hcs : cs.length ≤ f := by simpa using hlen
          have hcs2 : cs.length ≤ g := by simpa using hlen2
          have hok2 : dollarsOkF st g cs = true := by
            simpa [dollarsOkF, hc] using hok
          have := ih cs g hcs hcs2 hok2
          rw [substF]
          simp only [hc, if_false]
          intro hm
          rcases List.mem_cons.mp hm with h1 | h1
          · exact hc h1.symm
          · exact this h1

end VariableStore

/-! ## Claim C5: idempotence of substitution -/

/-- Store for the C5 counterexample: `a` holds a bare dollar sign (no
`$\x7b...\x7d` token inside it), `b` holds plain text. -/
def V5cex : VariableStore := ⟨[("a", "$"), ("b", "x")]⟩

/-- Text for the C5 counterexample. -/
def T5cex : String := "$\x7ba\x7d\x7bb\x7d"

/-- **C5 counterexample.**  Every `$\x7bname\x7d` token occurring in `T`
(scanned exactly as `re.sub` scans) resolves in the store, and no substituted
value contains a further `$\x7b...\x7d` token — yet substitution is not
idempotent: replacing `$\x7ba\x7d` by the value `$` creates the new token
`$\x7bb\x7d` by juxtaposition with the following text, and the second pass
rewrites it. -/
theorem C5_counterexample :
    ((V5cex.scanTokens T5cex).all (fun n => (V5cex.vars.lookup n).isSome) = true)
    ∧ ((V5cex.scanTokens T5cex).all
        (fun n => !(V5cex.containsToken (V5cex.get n ""))) = true)
    ∧ V5cex.substitute (V5cex.substitute T5cex) ≠ V5cex.substitute T5cex := by
  refine ⟨by decide, by decide, by decide⟩

/-- **C5 (amended).**  If every occurrence of `$` in `T` begins a
`$\x7bname\x7d` token whose name is stored, and no stored value contains a `$`
character, then applying `substitute` twice equals applying it once. -/
theorem C5_substitute_idempotent (st : VariableStore) (T : String)
    (h1 : st.dollarsOk T = true) (h2 : st.valuesDollarFree = true) :
    st.substitute (st.substitute T) = st.substitute T := by
  have hfree : '$' ∉ (st.substitute T).data := by
    have := VariableStore.substF_dollar_free st h2 T.data.length T.data
      T.data.length (Nat.le_refl _) (Nat.le_refl _) h1
    simpa [VariableStore.substitute] using this
  conv_lhs => rw [VariableStore.substitute]
  rw [VariableStore.substF_no_dollar st _ _ hfree]

/-- Store for the C5 witness. -/
def V5wit : VariableStore := ⟨[("NAME", "World")]⟩

/-- Witness for C5 (amended) at a concrete store and text. -/
theorem C5_witness :
    V5wit.substitute (V5wit.substitute "hi $\x7bNAME\x7d!") =
      V5wit.substitute "hi $\x7bNAME\x7d!" :=
  C5_substitute_idempotent V5wit "hi $\x7bNAME\x7d!" (by decide) (by decide)

/-! ## Claim C8: exit-mode validation -/

/-- `s` is the decimal representation of the integer `N`: an optional minus
sign followed by one or more digits, zero padding allowed. -/
def isDecRep (N : Int) (s : String) : Bool :=
  match s.data with
  | [] => false
  | c :: rest =>
    if c = '-' then
      !rest.isEmpty && rest.all Char.isDigit && (N == -(digitsVal rest : Int))
    else
      (c :: rest).all Char.isDigit && (N == (digitsVal (c :: rest) : Int))

theorem digit_not_space {c : Char} (h : c.isDigit = true) : pyIsSpace c = false := by
  by_contra hne
  have hsp : pyIsSpace c = true := by
    revert hne
    cases pyIsSpace c <;> simp
  have hor := hsp
  simp only [pyIsSpace, Bool.or_eq_true, decide_eq_true_eq] at hor
  rcases hor with ((((h1 | h1) | h1) | h1) | h1) | h1 <;> subst h1 <;> simp_all

theorem dropWhile_eq_self_of_all {p : Char → Bool} {l : List Char}
    (h : ∀ c ∈ l, p c = false) : l.dropWhile p = l := by
  cases l with
  | nil => rfl
  | cons c cs =>
    rw [List.dropWhile_cons]
    simp [h c (List.mem_cons_self c cs)]

theorem pyStripL_eq_self {l : List Char}
    (h : ∀ c ∈ l, pyIsSpace c = false) : pyStripL l = l := by
  unfold pyStripL
  rw [dropWhile_eq_self_of_all h]
  rw [dropWhile_eq_self_of_all (fun c hc => h c (List.mem_reverse.mp hc))]
  exact List.reverse_reverse l

theorem pyDigitsGo_digits : ∀ (ds : List Char) (acc : Nat),
    ds.all Char.isDigit = true →
    pyDigitsGo acc ds = some (ds.foldl (fun a c => a * 10 + digitVal c) acc) := by
  intro ds
  induction ds with
  | nil => intro acc _; rfl
  | cons c cs ih =>
    intro acc h
    simp only [List.all_cons, Bool.and_eq_true] at h
    rw [pyDigitsGo.eq_def]
    simp only [h.1, if_true, List.foldl_cons]
    exact ih _ h.2

theorem pyDigits_digits {ds : List Char} (hne : ds ≠ [])
    (h : ds.all Char.isDigit = true) : pyDigits ds = some (digitsVal ds) := by
  match ds, hne with
  | c :: cs, _ =>
    simp only [List.all_cons, Bool.and_eq_true] at h
    rw [pyDigits.eq_def]
    simp only [h.1, if_true]
    rw [pyDigitsGo_digits cs _ h.2]
    simp [digitsVal]

theorem pyIntL_of_strip_fixed {c : Char} {rest : List Char}
    (hstrip : pyStripL (c :: rest) = c :: rest) :
    pyIntL (c :: rest) =
      if c = '-' then (pyDigits rest).map (fun n => -(n : Int))
      else if c = '+' then (pyDigits rest).map (fun n => (n : Int))
      else (pyDigits (c :: rest)).map (fun n => (n : Int)) := by
  unfold pyIntL
  rw [hstrip]

theorem pyInt_of_isDecRep {N : Int} {s : String}
    (h : isDecRep N s = true) : pyInt s = some N := by
  rcases hdata : s.data with _ | ⟨c, rest⟩
  · rw [isDecRep, hdata] at h
    exact absurd h (by simp)
  · rw [isDecRep, hdata] at h
    have h2 : (if c = '-' then
        !rest.isEmpty && rest.all Char.isDigit && (N == -(digitsVal rest : Int))
      else (c :: rest).all Char.isDigit &&
        (N == (digitsVal (c :: rest) : Int))) = true := h
    unfold pyInt
    rw [hdata]
    by_cases hc : c = '-'
    · subst hc
      rw [if_pos rfl] at h2
      simp only [Bool.and_eq_true, Bool.not_eq_true', beq_iff_eq] at h2
      obtain ⟨⟨hne0, hdig⟩, hN⟩ := h2
      have hne : rest ≠ [] := by
        cases rest <;> simp_all
      have hstrip : pyStripL ('-' :: rest) = '-' :: rest := by
        apply pyStripL_eq_self
        intro x hx
        rcases List.mem_cons.mp hx with h1 | h1
        · subst h1; decide
        · exact digit_not_space (List.all_eq_true.mp hdig x h1)
      rw [pyIntL_of_strip_fixed hstrip, if_pos rfl, pyDigits_digits hne hdig]
      simp [hN]
    · rw [if_neg hc] at h2
      simp only [Bool.and_eq_true, beq_iff_eq] at h2
      obtain ⟨hdig, hN⟩ := h2
      have hcd : c.isDigit = true :=
        List.all_eq_true.mp hdig c (List.mem_cons_self c rest)
      have hstrip : pyStripL (c :: rest) = c :: rest := by
        apply pyStripL_eq_self
        intro x hx
        exact digit_not_space (List.all_eq_true.mp hdig x hx)
      have hcp : ¬c = '+' := by
        intro he
        rw [he] at hcd
        simp [Char.isDigit] at hcd
      rw [pyIntL_of_strip_fixed hstrip, if_neg hc, if_neg hcp]
      rw [pyDigits_digits (by simp) hdig]
      simp [hN]

/-- **C8.**  For exit-mode validation with an expected string that is the
decimal representation of `N` (zero padding allowed), validation returns a
pair whose boolean is true exactly when the result exit code equals `N`. -/
theorem C8_exit_mode (r : ExecutionResult) (cb : CodeBlock) (N : Int)
    (hmode : cb.mode = "exit") (hexp : isDecRep N cb.expected = true) :
    ∃ msg, Validator.validate r cb = .ok (decide (r.exitCode = N), msg) := by
  have hint : pyInt cb.expected = some N := pyInt_of_isDecRep hexp
  by_cases he : r.exitCode = N
  · refine ⟨"Exit code matched: " ++ toString N, ?_⟩
    simp [Validator.validate, hmode, hint, he]
  · refine ⟨"Exit code " ++ toString r.exitCode ++ " != expected " ++ toString N, ?_⟩
    simp [Validator.validate, hmode, hint, he]

/-- Witness for C8 at the concrete zero-padded input from the spec:
`expected = "007"` passes exactly when the exit code is 7. -/
theorem C8_witness :
    ∃ msg,
      Validator.validate
        { success := true, exitCode := 7, stdout := "", stderr := "",
          errorMessage := none }
        { code := "", mode := "exit", expected := "007" } =
        .ok (decide ((7 : Int) = 7), msg) :=
  C8_exit_mode
    { success := true, exitCode := 7, stdout := "", stderr := "",
      errorMessage := none }
    { code := "", mode := "exit", expected := "007" } 7 rfl (by decide)

/-! ## Claim C1: totality of the Validator -/

/-- **C1 counterexample.**  With `mode="exit"` and an expected string that
does not parse as an integer, `Validator.validate` raises `ValueError` from
the unguarded `int(expected)` (executor.py line 119) instead of returning a
`(bool, string)` pair. -/
theorem C1_counterexample :
    Validator.validate
      { success := true, exitCode := 0, stdout := "", stderr := "",
        errorMessage := none }
      { code := "", mode := "exit", expected := "abc" } =
      Except.error (PyErr.valueError "abc") := rfl

/-- **C1 (amended).**  `Validator.validate` returns a `(bool, string)` pair
for every result and block **except** when `mode="exit"` and the expected
string does not parse as an integer, in which case it raises `ValueError`;
and an invalid pattern in `regex` mode is caught and reported as a failure
pair carrying an "Invalid regex pattern" message. -/
theorem C1_validate_total :
    (∀ (r : ExecutionResult) (cb : CodeBlock),
      (∃ p, Validator.validate r cb = .ok p) ∨
      (cb.mode = "exit" ∧ pyInt cb.expected = none ∧
        Validator.validate r cb = .error (.valueError cb.expected))) ∧
    (∀ (r : ExecutionResult) (cb : CodeBlock) (e : String),
      cb.mode = "regex" → reCompile cb.expected = .error e →
      Validator.validate r cb = .ok (false, "Invalid regex pattern: " ++ e)) := by
  constructor
  · intro r cb
    by_cases h1 : cb.mode = "exit"
    · rcases hint : pyInt cb.expected with _ | n
      · right
        exact ⟨h1, rfl, by simp [Validator.validate, h1, hint]⟩
      · left
        simp only [Validator.validate, h1, if_true, hint]
        split <;> exact ⟨_, rfl⟩
    · left
      simp only [Validator.validate, h1, if_false]
      split
      · split <;> exact ⟨_, rfl⟩
      · split
        · split
          · exact ⟨_, rfl⟩
          · split <;> exact ⟨_, rfl⟩
        · split
          · split <;> exact ⟨_, rfl⟩
          · exact ⟨_, rfl⟩
  · intro r cb e hmode hcomp
    simp [Validator.validate, hmode, hcomp]

/-- Witness for C1 (amended): the invalid pattern `"("` is reported as a
failure pair, not raised. -/
theorem C1_witness :
    Validator.validate
      { success := true, exitCode := 0, stdout := "x", stderr := "",
        errorMessage := none }
      { code := "", mode := "regex", expected := "(" } =
      .ok (false, "Invalid regex pattern: " ++ "missing ), unterminated subpattern") :=
  C1_validate_total.2
    { success := true, exitCode := 0, stdout := "x", stderr := "",
      errorMessage := none }
    { code := "", mode := "regex", expected := "(" }
    "missing ), unterminated subpattern" rfl rfl

/-! ## Claim C2: output and exit-code capture -/

namespace VariableStore

theorem lookup_map_replace {m : List (String × String)} {k : String}
    (v : String) (h : (m.lookup k).isSome = true) :
    (m.map (fun p => if p.1 = k then (k, v) else p)).lookup k = some v := by
  induction m with
  | nil => simp [List.lookup] at h
  | cons p rest ih =>
    obtain ⟨pk, pv⟩ := p
    by_cases hp : pk = k
    · subst hp
      simp [List.lookup_cons]
    · have hbeq : (k == pk) = false := by
        simp only [beq_eq_false_iff_ne, ne_eq]
        exact fun he => hp he.symm
      rw [List.map_cons]
      simp only [if_neg hp]
      rw [List.lookup_cons, hbeq]
      rw [List.lookup_cons, hbeq] at h
      exact ih h

theorem lookup_append_single {m : List (String × String)} {k : String}
    (v : String) (h : m.lookup k = none) :
    (m ++ [(k, v)]).lookup k = some v := by
  induction m with
  | nil => simp [List.lookup_cons]
  | cons p rest ih =>
    rw [List.lookup_cons] at h
    rcases hbeq : (k == p.1) with _ | _
    · rw [hbeq] at h
      rw [List.cons_append, List.lookup_cons, hbeq]
      exact ih h
    · rw [hbeq] at h
      simp at h

theorem lookup_map_replace_other {m : List (String × String)} {k k' : String}
    (v : String) (hne : k' ≠ k) :
    (m.map (fun p => if p.1 = k then (k, v) else p)).lookup k' = m.lookup k' := by
  induction m with
  | nil => rfl
  | cons p rest ih =>
    obtain ⟨pk, pv⟩ := p
    by_cases hp : pk = k
    · subst hp
      have hbeq : (k' == pk) = false := by simpa using hne
      rw [List.map_cons]
      have hhead : (if (pk, pv).1 = pk then (pk, v) else (pk, pv)) = (pk, v) := by
        simp
      rw [hhead, List.lookup_cons, List.lookup_cons]
      simp only [hbeq]
      exact ih
    · rw [List.map_cons]
      simp only [if_neg hp]
      rw [List.lookup_cons, List.lookup_cons]
      rcases hbeq : (k' == pk) with _ | _
      · simp only [hbeq]
        exact ih
      · simp only [hbeq]

theorem lookup_append_single_other {m : List (String × String)} {k k' : String}
    (v : String) (hne : k' ≠ k) :
    (m ++ [(k, v)]).lookup k' = m.lookup k' := by
  induction m with
  | nil =>
    have hbeq : (k' == k) = false := by simpa using hne
    simp [List.lookup_cons, hbeq]
  | cons p rest ih =>
    rw [List.cons_append, List.lookup_cons, List.lookup_cons]
    rcases hbeq : (k' == p.1) with _ | _
    · simp only [hbeq]
      exact ih
    · simp only [hbeq]

theorem get_set_self (st : VariableStore) (k v d : String) :
    (st.set k v).get k d = v := by
  unfold set get
  by_cases h : (st.vars.lookup k).isSome = true
  · rw [if_pos h]
    simp [lookup_map_replace v h]
  · rw [if_neg h]
    have hn : st.vars.lookup k = none := by
      rcases he : st.vars.lookup k with _ | w
      · rfl
      · rw [he] at h; simp at h
    simp [lookup_append_single v hn]

theorem get_set_other (st : VariableStore) (k k' v d : String) (hne : k' ≠ k) :
    (st.set k v).get k' d = st.get k' d := by
  unfold set get
  by_cases h : (st.vars.lookup k).isSome = true
  · rw [if_pos h]
    simp [lookup_map_replace_other v hne]
  · rw [if_neg h]
    simp [lookup_append_single_other v hne]

end VariableStore

theorem execute_completed_snd (cfg : ExecCfg) (store : VariableStore)
    (cb : CodeBlock) (w : World) (rc : Int) (out err : String)
    (hwd : w.dirExists (Executor.resolveWorkingDir cfg cb) = true)
    (hrun : w.run (store.substitute cb.code) (Executor.resolveWorkingDir cfg cb)
      cb.timeout = .completed rc out err) :
    (Executor.execute_code_block cfg store cb w).2 =
      (match cb.codeVar with
       | some cv =>
         if cv = "" then
           (match cb.outVar with
            | some ov => if ov = "" then store
                else store.set ov (pyStrip (out ++ err))
            | none => store)
         else
           (match cb.outVar with
            | some ov => if ov = "" then store
                else store.set ov (pyStrip (out ++ err))
            | none => store).set cv (toString rc)
       | none =>
         match cb.outVar with
         | some ov => if ov = "" then store
             else store.set ov (pyStrip (out ++ err))
         | none => store) := by
  simp only [Executor.execute_code_block, hwd, hrun, not_true, Bool.not_true,
    if_false, ite_false, Bool.false_eq_true]

/-- **C2.**  When the command launches and completes (any exit code `rc`),
the executor stores under `out_var` the whitespace-trimmed concatenation of
stdout and stderr, and under `code_var` the exit code rendered as a string.
The Python truthiness test makes an empty capture name a no-op, and the
`code_var` assignment happens after `out_var`, so the hypotheses require the
names nonempty and distinct. -/
theorem C2_capture (cfg : ExecCfg) (store : VariableStore) (cb : CodeBlock)
    (w : World) (rc : Int) (out err : String) (ov cv : String)
    (hwd : w.dirExists (Executor.resolveWorkingDir cfg cb) = true)
    (hrun : w.run (store.substitute cb.code) (Executor.resolveWorkingDir cfg cb)
      cb.timeout = .completed rc out err) :
    ((cb.outVar = some ov ∧ ov ≠ "" ∧ cb.codeVar ≠ some ov) →
      (Executor.execute_code_block cfg store cb w).2.get ov "" =
        pyStrip (out ++ err)) ∧
    ((cb.codeVar = some cv ∧ cv ≠ "") →
      (Executor.execute_code_block cfg store cb w).2.get cv "" = toString rc) := by
  rw [execute_completed_snd cfg store cb w rc out err hwd hrun]
  constructor
  · rintro ⟨hov, hovne, hcvne⟩
    rw [hov]
    rcases hcv : cb.codeVar with _ | cv'
    · simp only [if_neg hovne]
      exact VariableStore.get_set_self _ _ _ _
    · by_cases hcve : cv' = ""
      · simp only [hcve, if_pos rfl, if_neg hovne]
        exact VariableStore.get_set_self _ _ _ _
      · have hcvov : ov ≠ cv' := by
          intro he
          exact hcvne (by rw [hcv, he])
        simp only [if_neg hcve, if_neg hovne]
        rw [VariableStore.get_set_other _ _ _ _ _ hcvov]
        exact VariableStore.get_set_self _ _ _ _
  · rintro ⟨hcv, hcvne⟩
    rw [hcv]
    simp only [if_neg hcvne]
    exact VariableStore.get_set_self _ _ _ _

/-- Concrete executor configuration for witnesses. -/
def cfgW : ExecCfg := ⟨"/base", false, "/"⟩

/-- Concrete code block with both capture targets for the C2 witness. -/
def cbW : CodeBlock :=
  { code := "echo Output; exit 5", outVar := some "OUT", codeVar := some "CODE" }

/-- Concrete world: every directory exists, the shell completes with exit
code 5 and the given output. -/
def wC2 : World :=
  { dirExists := fun _ => true,
    run := fun _ _ _ => .completed 5 "Output\n" "",
    writeOut := fun _ _ => none }

/-- Witness for C2 at a concrete block, store and world with exit code 5. -/
theorem C2_witness :
    (Executor.execute_code_block cfgW ⟨[]⟩ cbW wC2).2.get "OUT" "" =
      pyStrip ("Output\n" ++ "") ∧
    (Executor.execute_code_block cfgW ⟨[]⟩ cbW wC2).2.get "CODE" "" =
      toString (5 : Int) :=
  ⟨(C2_capture cfgW ⟨[]⟩ cbW wC2 5 "Output\n" "" "OUT" "CODE" rfl rfl).1
      ⟨rfl, by decide, by decide⟩,
    (C2_capture cfgW ⟨[]⟩ cbW wC2 5 "Output\n" "" "OUT" "CODE" rfl rfl).2
      ⟨rfl, by decide⟩⟩

/-! ## Claim C10: shape of the ExecutionResult -/

theorem string_append_ne_empty {p : String} (hp : p ≠ "") (t : String) :
    p ++ t ≠ "" := by
  intro he
  apply hp
  have hlen := congrArg String.length he
  rw [String.length_append] at hlen
  have h0 : p.length = 0 := by
    have : ("" : String).length = 0 := rfl
    omega
  have hdata : p.data = [] := List.length_eq_zero.mp h0
  apply String.ext
  rw [hdata]

theorem execute_completed_fst_success (cfg : ExecCfg) (store : VariableStore)
    (cb : CodeBlock) (w : World) (rc : Int) (out err : String)
    (hwd : w.dirExists (Executor.resolveWorkingDir cfg cb) = true)
    (hrun : w.run (store.substitute cb.code) (Executor.resolveWorkingDir cfg cb)
      cb.timeout = .completed rc out err) :
    (Executor.execute_code_block cfg store cb w).1.success = (rc == 0) := by
  simp only [Executor.execute_code_block, hwd, hrun, not_true, Bool.not_true,
    if_false, ite_false, Bool.false_eq_true]
  split
  · split
    · rfl
    · split
      · split
        · rfl
        · rfl
      · rfl
  · rfl

/-- **C10.**  The `ExecutionResult` of `execute_code_block` satisfies:
`success` is true exactly when the working directory exists and the shell
run completed with exit code 0; and in each error branch (missing working
directory, timeout, launch exception) the result is exactly the failure
record with `exit_code = -1`, empty `stdout`/`stderr`, and a nonempty
`error_message`. -/
theorem C10_result_invariants (cfg : ExecCfg) (store : VariableStore)
    (cb : CodeBlock) (w : World) :
    ((Executor.execute_code_block cfg store cb w).1.success = true ↔
      (w.dirExists (Executor.resolveWorkingDir cfg cb) = true ∧
        ∃ out err, w.run (store.substitute cb.code)
          (Executor.resolveWorkingDir cfg cb) cb.timeout =
            .completed 0 out err)) ∧
    (w.dirExists (Executor.resolveWorkingDir cfg cb) = false →
      (Executor.execute_code_block cfg store cb w).1 =
        { success := false, exitCode := -1, stdout := "", stderr := "",
          errorMessage := some ("Working directory does not exist: " ++
            Executor.resolveWorkingDir cfg cb) } ∧
      ("Working directory does not exist: " ++
        Executor.resolveWorkingDir cfg cb) ≠ "") ∧
    (w.dirExists (Executor.resolveWorkingDir cfg cb) = true →
      w.run (store.substitute cb.code) (Executor.resolveWorkingDir cfg cb)
        cb.timeout = .timedOut →
      (Executor.execute_code_block cfg store cb w).1 =
        { success := false, exitCode := -1, stdout := "", stderr := "",
          errorMessage := some ("Command timed out after " ++
            toString cb.timeout ++ " seconds") } ∧
      ("Command timed out after " ++ toString cb.timeout ++ " seconds") ≠ "") ∧
    (∀ m, w.dirExists (Executor.resolveWorkingDir cfg cb) = true →
      w.run (store.substitute cb.code) (Executor.resolveWorkingDir cfg cb)
        cb.timeout = .failed m →
      (Executor.execute_code_block cfg store cb w).1 =
        { success := false, exitCode := -1, stdout := "", stderr := "",
          errorMessage := some ("Execution error: " ++ m) } ∧
      ("Execution error: " ++ m) ≠ "") := by
  refine ⟨?_, ?_, ?_, ?_⟩
  · rcases hd : w.dirExists (Executor.resolveWorkingDir cfg cb) with _ | _
    · constructor
      · intro hs
        exfalso
        have : (Executor.execute_code_block cfg store cb w).1.success = false := by
          simp [Executor.execute_code_block, hd]
        rw [this] at hs
        exact absurd hs (by simp)
      · rintro ⟨hfalse, _⟩
        simp at hfalse
    · rcases hr : w.run (store.substitute cb.code)
          (Executor.resolveWorkingDir cfg cb) cb.timeout with ⟨rc, sout, serr⟩ | _ | m
      · rw [execute_completed_fst_success cfg store cb w rc sout serr hd hr]
        constructor
        · intro hrc
          refine ⟨rfl, sout, serr, ?_⟩
          have : rc = 0 := by simpa using hrc
          rw [this]
        · rintro ⟨_, out', err', hrun'⟩
          have : rc = 0 := by
            have h2 := hrun'
            simp only [RunOutcome.completed.injEq] at h2
            exact h2.1
          simp [this]
      · have : (Executor.execute_code_block cfg store cb w).1.success = false := by
          simp [Executor.execute_code_block, hd, hr]
        rw [this]
        constructor
        · intro hs; exact absurd hs (by simp)
        · rintro ⟨_, out', err', hrun'⟩
          exact absurd hrun' (by simp)
      · have : (Executor.execute_code_block cfg store cb w).1.success = false := by
          simp [Executor.execute_code_block, hd, hr]
        rw [this]
        constructor
        · intro hs; exact absurd hs (by simp)
        · rintro ⟨_, out', err', hrun'⟩
          exact absurd hrun' (by simp)
  · intro hd
    refine ⟨by simp [Executor.execute_code_block, hd], ?_⟩
    exact string_append_ne_empty (by decide) _
  · intro hd hr
    refine ⟨by simp [Executor.execute_code_block, hd, hr], ?_⟩
    exact string_append_ne_empty
      (string_append_ne_empty (by decide) (toString cb.timeout)) " seconds"
  · intro m hd hr
    refine ⟨by simp [Executor.execute_code_block, hd, hr], ?_⟩
    exact string_append_ne_empty (by decide) m

/-- Concrete world whose working directory is missing, for the C10 witness. -/
def wMissW : World :=
  { dirExists := fun _ => false,
    run := fun _ _ _ => .timedOut,
    writeOut := fun _ _ => none }

/-- Witness for C10: with a missing working directory the result is exactly
the failure record with the distinct message. -/
theorem C10_witness :
    (Executor.execute_code_block cfgW ⟨[]⟩ cbW wMissW).1 =
      { success := false, exitCode := -1, stdout := "", stderr := "",
        errorMessage := some ("Working directory does not exist: " ++
          Executor.resolveWorkingDir cfgW cbW) } :=
  ((C10_result_invariants cfgW ⟨[]⟩ cbW wMissW).2.1 rfl).1

/-! ## Claim C6: path sandbox containment -/

theorem isPrefixOf_exists {l₁ l₂ : List Char} (h : l₁.isPrefixOf l₂ = true) :
    ∃ t, l₂ = l₁ ++ t := by
  induction l₁ generalizing l₂ with
  | nil => exact ⟨l₂, rfl⟩
  | cons a as ih =>
    cases l₂ with
    | nil => simp [List.isPrefixOf] at h
    | cons b bs =>
      rw [List.isPrefixOf_cons₂] at h
      simp only [Bool.and_eq_true, beq_iff_eq] at h
      obtain ⟨t, ht⟩ := ih h.2
      refine ⟨t, by rw [h.1, ht]; simp⟩

theorem segsL_ne_nil (l : List Char) : segsL l ≠ [] := by
  cases l with
  | nil => simp [segsL]
  | cons c cs =>
    by_cases hc : c = '/'
    · simp [segsL, hc]
    · simp only [segsL, hc, if_false]
      rcases h : segsL cs with _ | ⟨s, ss⟩ <;> simp

theorem segsL_append (a b : List Char) :
    segsL (a ++ '/' :: b) = segsL a ++ segsL b := by
  induction a with
  | nil => simp [segsL]
  | cons c cs ih =>
    by_cases hc : c = '/'
    · subst hc
      simp only [List.cons_append]
      rw [segsL, if_pos rfl, ih, segsL, if_pos rfl]
      rfl
    · rcases h : segsL cs with _ | ⟨s, ss⟩
      · exact absurd h (segsL_ne_nil cs)
      · have h2 : segsL (cs ++ '/' :: b) = s :: (ss ++ segsL b) := by
          rw [ih, h]
          rfl
        simp only [List.cons_append]
        rw [segsL, if_neg hc, h2, segsL, if_neg hc, h]
        rfl

theorem compsL_append (a b : List Char) :
    compsL (a ++ '/' :: b) = compsL a ++ compsL b := by
  unfold compsL
  rw [segsL_append, List.filter_append]

/-- Written from the claim: `child` equals `base` or is a descendant of it —
the path components of `base` form an initial segment of those of `child`. -/
def isUnder (child base : String) : Prop :=
  ∃ t, compsL child.data = compsL base.data ++ t

theorem isUnder_self (p : String) : isUnder p p := ⟨[], by simp⟩

theorem isUnder_of_string_prefix {base resolved : String}
    (h : ((base ++ "/").data.isPrefixOf resolved.data) = true) :
    isUnder resolved base := by
  obtain ⟨t, ht⟩ := isPrefixOf_exists h
  have hd : resolved.data = base.data ++ '/' :: t := by
    rw [ht]
    simp [String.data_append]
  exact ⟨compsL t, by rw [hd, compsL_append]⟩

theorem isUnder_of_prefix_prop {base resolved : String}
    (h : (base.data ++ ['/']) <+: resolved.data) : isUnder resolved base := by
  obtain ⟨t, ht⟩ := h
  have hd : resolved.data = base.data ++ '/' :: t := by
    rw [← ht]
    simp
  exact ⟨compsL t, by rw [hd, compsL_append]⟩

/-- **C6.**  With `allow_outside=False`: an absolute path is rejected with
the absolute-path message; a relative path whose resolution is not under the
normalized absolute base is rejected with the traversal message; and a valid
verdict implies the resolved path equals or is a descendant of the
normalized absolute base. -/
theorem C6_validate_path (P B cwd : String) :
    (pyIsAbs P = true →
      PathSandbox.validate_path P B false cwd =
        (false, "", "Absolute paths are not allowed for safety reasons")) ∧
    (pyIsAbs P = false →
      ¬isUnder (pyAbspath cwd (pyJoin B P)) (pyAbspath cwd B) →
      PathSandbox.validate_path P B false cwd =
        (false, "",
          "Path traversal outside working directory not allowed: " ++ P)) ∧
    (∀ resolved,
      PathSandbox.validate_path P B false cwd = (true, resolved, "") →
      isUnder resolved (pyAbspath cwd B)) := by
  refine ⟨?_, ?_, ?_⟩
  · intro habs
    simp [PathSandbox.validate_path, habs]
  · intro habs hnot
    simp only [PathSandbox.validate_path, habs, Bool.false_and,
      Bool.not_false, Bool.and_true, if_false, Bool.false_eq_true, not_false_iff,
      if_true, ite_true]
    by_cases hpre : ((pyAbspath cwd B).data ++ ['/']) <+:
        (pyAbspath cwd (pyJoin B P)).data
    · exact absurd (isUnder_of_prefix_prop hpre) hnot
    · by_cases heq : pyAbspath cwd (pyJoin B P) = pyAbspath cwd B
      · exfalso
        apply hnot
        rw [heq]
        exact isUnder_self _
      · simp [hpre, heq]
  · intro resolved hval
    rcases habs : pyIsAbs P with _ | _
    · simp only [PathSandbox.validate_path, habs, Bool.false_and,
        Bool.false_eq_true, if_false, not_false_iff] at hval
      by_cases hpre : ((pyAbspath cwd B).data ++ ['/']) <+:
          (pyAbspath cwd (pyJoin B P)).data
      · have hres : pyAbspath cwd (pyJoin B P) = resolved := by
          simp [hpre] at hval
          exact hval
        rw [← hres]
        exact isUnder_of_prefix_prop hpre
      · by_cases heq : pyAbspath cwd (pyJoin B P) = pyAbspath cwd B
        · have hres : pyAbspath cwd B = resolved := by
            simp [hpre, heq] at hval
            exact hval
          rw [← hres]
          exact isUnder_self _
        · exfalso
          simp [hpre, heq] at hval
    · simp [PathSandbox.validate_path, habs] at hval

/-- Witness for C6: the absolute path `/etc/x` against base `/b` is rejected
with the absolute-path message. -/
theorem C6_witness :
    PathSandbox.validate_path "/etc/x" "/b" false "/" =
      (false, "", "Absolute paths are not allowed for safety reasons") :=
  (C6_validate_path "/etc/x" "/b" "/").1 (by decide)

/-! ## Claims C3 and C7: `write_file` -/

/-- Filesystem for the C3 counterexample: `/base/a` is a regular file, so
creating the parent directory `/base/a` of `a/b.txt` raises. -/
def fsC3 : FS := ⟨[("/", .dir), ("/base", .dir), ("/base/a", .file "z" 420)]⟩

/-- Executor configuration used in the write-file claims. -/
def cfgC3 : ExecCfg := ⟨"/base", false, "/"⟩

/-- **C3 counterexample.**  `os.makedirs` sits outside the `try` block of
`write_file` (executor.py lines 208-211 versus 213-230): when the parent
path exists as a regular file, the `FileExistsError` escapes to the caller
instead of being returned as a failure message. -/
theorem C3_counterexample :
    Executor.write_file cfgC3 ⟨[]⟩ { code := "hi", path := "a/b.txt" } fsC3 =
      Except.error (PyErr.osError "FileExistsError: /base/a") := rfl

/-- **C3 (amended).**  `write_file` returns a `(success, message)` pair for
every block and filesystem state **except** when creating the missing parent
directories fails — that exception escapes; exceptions from opening, writing
and setting permission bits are caught and returned as failure messages. -/
theorem C3_write_file_total (cfg : ExecCfg) (store : VariableStore)
    (fb : FileBlock) (fs : FS) :
    (∃ r, Executor.write_file cfg store fb fs = .ok r) ∨
    (∃ e, Executor.write_file cfg store fb fs = .error e ∧
      pyDirname (PathSandbox.validate_path fb.path cfg.baseWorkingDir
        cfg.allowOutside cfg.cwd).2.1 ≠ "" ∧
      fs.makedirs (pyDirname (PathSandbox.validate_path fb.path
        cfg.baseWorkingDir cfg.allowOutside cfg.cwd).2.1) = .error e) := by
  simp only [Executor.write_file]
  split
  · exact Or.inl ⟨_, rfl⟩
  · split
    · exact Or.inl ⟨_, rfl⟩
    · split
      · next e heq =>
        by_cases hpd : pyDirname (PathSandbox.validate_path fb.path
            cfg.baseWorkingDir cfg.allowOutside cfg.cwd).2.1 ≠ ""
        · rw [if_pos hpd] at heq
          exact Or.inr ⟨e, rfl, hpd, heq⟩
        · rw [if_neg hpd] at heq
          exact absurd heq (by simp)
      · next fs1 heq =>
        split
        · exact Or.inl ⟨_, rfl⟩
        · split
          · exact Or.inl ⟨_, rfl⟩
          · exact Or.inl ⟨_, rfl⟩

/-- Witness for C3 (amended): on a clean filesystem the write succeeds, so
the left disjunct holds with a concrete pair. -/
theorem C3_witness :
    (∃ r, Executor.write_file cfgC3 ⟨[]⟩ { code := "hi", path := "c.txt" }
      (⟨[("/", .dir), ("/base", .dir)]⟩ : FS) = .ok r) ∨
    (∃ e, Executor.write_file cfgC3 ⟨[]⟩ { code := "hi", path := "c.txt" }
      (⟨[("/", .dir), ("/base", .dir)]⟩ : FS) = .error e ∧
      pyDirname (PathSandbox.validate_path "c.txt" cfgC3.baseWorkingDir
        cfgC3.allowOutside cfgC3.cwd).2.1 ≠ "" ∧
      FS.makedirs (⟨[("/", .dir), ("/base", .dir)]⟩ : FS)
        (pyDirname (PathSandbox.validate_path "c.txt" cfgC3.baseWorkingDir
          cfgC3.allowOutside cfgC3.cwd).2.1) = .error e) :=
  C3_write_file_total cfgC3 ⟨[]⟩ { code := "hi", path := "c.txt" }
    (⟨[("/", .dir), ("/base", .dir)]⟩ : FS)

/-- Filesystem for the C7 claim: the target file already exists. -/
def fsC7 : FS := ⟨[("/", .dir), ("/base", .dir),
  ("/base/t.txt", .file "Original\n" 420)]⟩

/-- **C7.**  A `once=true` block whose resolved destination already exists
returns success with the skip message and leaves the filesystem (bytes and
permission bits of every entry) completely unchanged. -/
theorem C7_once_skip (cfg : ExecCfg) (store : VariableStore) (fb : FileBlock)
    (fs : FS) (resolved : String)
    (hval : PathSandbox.validate_path fb.path cfg.baseWorkingDir
      cfg.allowOutside cfg.cwd = (true, resolved, ""))
    (honce : fb.once = true) (hex : fs.exists_ resolved = true) :
    Executor.write_file cfg store fb fs =
      .ok ((true, "File already exists, skipping (once=true): " ++ fb.path),
        fs) := by
  unfold Executor.write_file
  rw [hval]
  simp [honce, hex]

/-- Witness for C7: a concrete `once=true` block against an existing file. -/
theorem C7_witness :
    Executor.write_file cfgC3 ⟨[]⟩
      { code := "New", path := "t.txt", once := true } fsC7 =
      .ok ((true, "File already exists, skipping (once=true): " ++ "t.txt"),
        fsC7) :=
  C7_once_skip cfgC3 ⟨[]⟩ { code := "New", path := "t.txt", once := true }
    fsC7 "/base/t.txt" rfl rfl rfl

/-! ## Claim C4: parser totality -/

/-- **C4 counterexample.**  A non-integer `data-timeout` on a `gr-run` fence
makes `parse_markdown` raise `ValueError` from `int(data.get("timeout", 30))`
(parser.py line 256) instead of degrading to the default 30. -/
theorem C4_counterexample :
    parse_markdown "```bash \x7b.gr-run data-timeout=abc\x7d\nx\n```" "t" =
      Except.error (PyErr.valueError "abc") ∧ pyInt "abc" = none :=
  ⟨rfl, rfl⟩

theorem create_code_block_error {code lang : String} {attrs : Attrs} {ln : Nat}
    {e : PyErr} (h : create_code_block code lang attrs ln = .error e) :
    ∃ v, e = .valueError v ∧ pyInt v = none := by
  simp only [create_code_block] at h
  rcases hl : attrs.data.lookup "timeout" with _ | v
  · simp only [hl] at h
    simp at h
  · simp only [hl] at h
    rcases hint : pyInt v with _ | n
    · simp only [hint, Except.error.injEq] at h
      exact ⟨v, h.symm, hint⟩
    · simp only [hint] at h
      simp at h

theorem parseLines_total (source : String) : ∀ (ls : List String) (st : PState)
    (k : Nat),
    (∃ t, parseLines source st k ls = .ok t) ∨
    (∃ v, parseLines source st k ls = .error (.valueError v) ∧
      pyInt v = none) := by
  intro ls
  induction ls with
  | nil =>
    intro st k
    exact Or.inl ⟨_, rfl⟩
  | cons line rest ih =>
    intro st k
    simp only [parseLines]
    split
    · split
      · split
        · exact ih _ _
        · exact ih _ _
      · split
        · split
          · next e heq =>
            obtain ⟨v, hv, hvi⟩ := create_code_block_error heq
            right
            refine ⟨v, ?_, hvi⟩
            rw [hv]
          · exact ih _ _
        · exact ih _ _
    · split
      · exact ih _ _
      · split
        · split
          · exact ih _ _
          · split
            · exact ih _ _
            · exact ih _ _
        · split
          · exact ih _ _
          · exact ih _ _

/-- **C4 (amended).**  `parse_markdown` returns a Tutorial for every input
string **except** those carrying a `gr-run` fence whose `data-timeout` value
does not parse as an integer, in which case it raises exactly that
`ValueError`; all other malformed input (attribute syntax, missing title,
zero steps) degrades to defaults. -/
theorem C4_parse_total (content source : String) :
    (∃ t, parse_markdown content source = .ok t) ∨
    (∃ v, parse_markdown content source = .error (.valueError v) ∧
      pyInt v = none) :=
  parseLines_total source (pyLines content) initPState 1

/-! ## Claim C9: tutorial title selection -/

/-- **C9 counterexample.**  In `## S {.gr-step}` followed by `# Title`, no
unmarked top-level heading occurs before the step heading (the claim then
demands "Untitled Tutorial"), yet the parser takes the later `# Title` as the
tutorial title: the guard at parser.py line 202 only checks that the title is
still unset, not that no step has started. -/
theorem C9_counterexample :
    (parse_markdown "## S \x7b.gr-step\x7d\n# Title" "t").map Tutorial.title =
      Except.ok "Title" ∧
    titleScanBefore false (pyLines "## S \x7b.gr-step\x7d\n# Title") = none ∧
    ("Title" : String) ≠ "Untitled Tutorial" :=
  ⟨rfl, rfl, by decide⟩

theorem parseLines_title (source : String) : ∀ (ls : List String) (st : PState)
    (k : Nat) (t : Tutorial), parseLines source st k ls = .ok t →
    t.title = if st.title ≠ "" then st.title
      else (titleScanAll st.inCode ls).getD "Untitled Tutorial" := by
  intro ls
  induction ls with
  | nil =>
    intro st k t h
    simp only [parseLines] at h
    rcases hcur : st.currentStep with _ | cur <;>
      simp only [hcur, Except.ok.injEq] at h <;>
      rw [← h] <;>
      by_cases ht : st.title = "" <;>
      simp [titleScanAll, ht]
  | cons line rest ih =>
    intro st k t h
    simp only [parseLines] at h
    rw [titleScanAll]
    split at h
    · next hfence =>
      rw [if_pos hfence]
      split at h
      · next hin =>
        have hin' : st.inCode = false := by
          simpa using hin
        rw [hin']
        split at h
        · rcases hcur : st.currentStep with _ | cur <;>
            simp only [hcur] at h
          · have := ih _ _ _ h
            simpa using this
          · by_cases hbuf : st.buffer.isEmpty <;> simp only [hbuf] at h
            · simp at h
              have := ih _ _ _ h
              simpa using this
            · have := ih _ _ _ h
              simpa using this
        · rcases hcur : st.currentStep with _ | cur <;>
            simp only [hcur] at h
          · have := ih _ _ _ h
            simpa using this
          · by_cases hbuf : st.buffer.isEmpty <;> simp only [hbuf] at h
            · simp at h
              have := ih _ _ _ h
              simpa using this
            · have := ih _ _ _ h
              simpa using this
      · next hin =>
        have hin' : st.inCode = true := by
          rcases hb : st.inCode with _ | _
          · rw [hb] at hin
            simp at hin
          · rfl
        rw [hin']
        split at h
        · split at h
          · simp at h
          · next cb hcb =>
            rcases hcur : st.currentStep with _ | cur <;>
              simp only [hcur] at h <;>
            · have := ih _ _ _ h
              simpa using this
        · have := ih _ _ _ h
          simpa using this
    · next hfence =>
      rw [if_neg hfence]
      split at h
      · next hin =>
        rw [hin, if_pos rfl]
        have := ih _ _ _ h
        simpa [hin] using this
      · next hin =>
        have hin' : st.inCode = false := by
          simpa using hin
        rw [hin']
        rw [if_neg (show ¬(false = true) by simp)]
        split at h
        · next hhead =>
          rw [if_pos hhead]
          split at h
          · next hstep =>
            rw [if_pos hstep]
            rcases hcur : st.currentStep with _ | cur
            all_goals simp only [hcur] at h
            all_goals (have hthis := ih _ _ _ h; simpa [hin'] using hthis)
          · next hstep =>
            rw [if_neg hstep]
            split at h
            · next hcond =>
              simp only [Bool.and_eq_true, decide_eq_true_eq] at hcond
              obtain ⟨htitle, hsw⟩ := hcond
              have hthis := ih _ _ _ h
              by_cases hh1 : (headingInfo line rest.head?).1 = ""
              · simp only [htitle, hsw, hh1] at hthis ⊢
                simpa [hin'] using hthis
              · simp only [htitle, hsw] at hthis ⊢
                simpa [hh1, hin'] using hthis
            · next hcond =>
              have hthis := ih _ _ _ h
              by_cases ht : st.title = ""
              · have hsw : pyStartsWith (pyStrip line) "# " = false := by
                  rcases hb : pyStartsWith (pyStrip line) "# " with _ | _
                  · rfl
                  · exact absurd (by simp [ht, hb]) hcond
                simp only [ht, hsw] at hthis ⊢
                simpa [hin'] using hthis
              · simp only [ht] at hthis ⊢
                simpa [ht, hin'] using hthis
        · next hhead =>
          rw [if_neg hhead]
          rcases hcur : st.currentStep with _ | cur
          all_goals simp only [hcur] at h
          all_goals (have hthis := ih _ _ _ h; simpa [hin'] using hthis)

/-- **C9 (amended).**  For every parsed document, the Tutorial title is the
text of the first top-level (`# `) heading outside code fences that does not
carry the `gr-step` marker and has nonempty text — wherever it occurs in the
document, before or after step headings; later top-level headings never
override it, and when there is no such heading the title is
"Untitled Tutorial". -/
theorem C9_title (content source : String) (t : Tutorial)
    (h : parse_markdown content source = .ok t) :
    t.title = (titleScanAll false (pyLines content)).getD "Untitled Tutorial" := by
  have := parseLines_title source (pyLines content) initPState 1 t h
  simpa [initPState] using this

/-- Witness for C9 (amended) on a concrete two-line document. -/
theorem C9_witness :
    (Tutorial.mk "Hi" "s" []).title =
      (titleScanAll false (pyLines "# Hi")).getD "Untitled Tutorial" :=
  C9_title "# Hi" "s" (Tutorial.mk "Hi" "s" []) rfl
